import Mathlib

/-!
Shallow embedding of the browser instrumentation layer of the
nyu-instagram-carousel-study repository (src/js/ga-video.js,
src/js/ga-carousel.js, src/js/ga-lite.js).

Pure state-transition semantics: every DOM/postMessage signal the scripts
listen to becomes a constructor of an event type carrying the data the
handler reads (current position, duration, Date.now() timestamps), and each
handler becomes a function from state and event to a new state plus the
list of analytics-sink calls it emits, in emission order.  JavaScript
numbers are modelled as rationals (positions, durations) and integers
(millisecond clock arithmetic); JS truthiness of a number is `≠ 0`.
-/

/-- JavaScript Math.round: rounds half toward positive infinity. -/
def jsRound (q : ℚ) : ℤ := ⌊q + 1/2⌋

/-- PROGRESS_SECONDS from src/js/ga-video.js: the configured milestone
seconds checked by trackVideoProgress. -/
def PROGRESS_SECONDS : List ℚ := [5, 10, 15, 30, 45, 60, 75, 90]

/-- videoState from src/js/ga-video.js.  progressTracked models the JS Set
by its membership (a list of the inserted milestones); startTime is
`null`/a Date.now() value; duration 0 means "unknown / not yet reported"
(the JS initial value). -/
structure VideoState where
  isStarted : Bool
  duration : ℚ
  maxWatched : ℚ
  progressTracked : List ℚ
  startTime : Option ℕ
  totalWatchedMs : ℤ
  videoType : String
deriving DecidableEq

/-- The analytics calls ga-video.js makes through GALite.track, with their
payload fields.  completedNaturally is `none` when the key is absent from
the payload (natural end) and `some false` on the unload path. -/
inductive GAEvent where
  | video_start (videoType : String) (duration : ℚ)
  | video_progress (second : ℚ) (duration : ℚ) (videoType : String)
  | video_complete (watchedMs : ℤ) (percentWatched : ℤ) (maxWatched : ℚ)
      (duration : ℚ) (videoType : String) (completedNaturally : Option Bool)
deriving DecidableEq

/-- trackVideoStart from ga-video.js. -/
def trackVideoStart (s : VideoState) : List GAEvent :=
  [.video_start s.videoType s.duration]

/-- The PROGRESS_SECONDS.forEach loop inside trackVideoProgress: walks the
milestone list in order; for each milestone with currentSeconds >= second
not yet in the tracked set, inserts it and emits it.  Returns the new
tracked set and the list of milestones emitted, in emission order. -/
def trackVideoProgressAux : List ℚ → ℚ → List ℚ → List ℚ × List ℚ
  | [], _, tracked => (tracked, [])
  | m :: ms, cs, tracked =>
    if m ≤ cs ∧ m ∉ tracked then
      ((trackVideoProgressAux ms cs (m :: tracked)).1,
        m :: (trackVideoProgressAux ms cs (m :: tracked)).2)
    else
      trackVideoProgressAux ms cs tracked

/-- trackVideoProgress from ga-video.js: `if (!videoState.duration) return;`
then the forEach over PROGRESS_SECONDS. -/
def trackVideoProgress (s : VideoState) (currentSeconds : ℚ) :
    VideoState × List GAEvent :=
  if s.duration = 0 then (s, [])
  else
    ({ s with progressTracked :=
        (trackVideoProgressAux PROGRESS_SECONDS currentSeconds s.progressTracked).1 },
      (trackVideoProgressAux PROGRESS_SECONDS currentSeconds s.progressTracked).2.map
        fun m => .video_progress m s.duration s.videoType)

/-- trackVideoComplete from ga-video.js: flushes the open watched interval
(clearing startTime), computes percent_watched from maxWatched, emits
video_complete without a completed_naturally key. -/
def trackVideoComplete (s : VideoState) (now : ℕ) : VideoState × List GAEvent :=
  let s1 :=
    match s.startTime with
    | some st =>
      { s with totalWatchedMs := s.totalWatchedMs + ((now : ℤ) - (st : ℤ)),
               startTime := none }
    | none => s
  let percent : ℤ :=
    if 0 < s1.duration then jsRound (s1.maxWatched / s1.duration * 100) else 0
  (s1, [.video_complete s1.totalWatchedMs percent s1.maxWatched s1.duration
          s1.videoType none])

/-- handlePageUnload from ga-video.js: if started and currently playing,
adds the final watch interval (without clearing startTime) and emits
video_complete with completed_naturally: false. -/
def videoHandlePageUnload (s : VideoState) (now : ℕ) : VideoState × List GAEvent :=
  if s.isStarted then
    match s.startTime with
    | some st =>
      let s1 := { s with totalWatchedMs := s.totalWatchedMs + ((now : ℤ) - (st : ℤ)) }
      let percent : ℤ :=
        if 0 < s1.duration then jsRound (s1.maxWatched / s1.duration * 100) else 0
      (s1, [.video_complete s1.totalWatchedMs percent s1.maxWatched s1.duration
              s1.videoType (some false)])
    | none => (s, [])
  else (s, [])

/-- The signals ga-video.js reacts to, over both transports: HTML5 media
events (loadedmetadata / play / timeupdate / pause / ended) and Vimeo
postMessage events (play / pause / timeupdate carrying seconds and
duration, possibly with no data payload / ended), plus the page-unload
lifecycle signal.  Each constructor carries exactly the data the JS
handler reads from the event. -/
inductive VEvent where
  | loadedmetadata (d : ℚ)
  | h5play (now : ℕ)
  | h5timeupdate (t : ℚ)
  | h5pause (now : ℕ)
  | h5ended (now : ℕ)
  | vimeoPlay (now : ℕ)
  | vimeoPause (now : ℕ)
  | vimeoTimeupdate (hasData : Bool) (t : ℚ) (d : ℚ)
  | vimeoEnded (now : ℕ)
  | unload (now : ℕ)
deriving DecidableEq

/-- One delivered signal: the corresponding ga-video.js handler body.
The two HTML5 play listeners run in registration order (start bookkeeping,
then the resume-timestamp listener); handleVimeoEvent merges both into one
switch case. -/
def videoStep (s : VideoState) : VEvent → VideoState × List GAEvent
  | .loadedmetadata d => ({ s with duration := d }, [])
  | .h5play now =>
    let r :=
      if s.isStarted then (s, [])
      else ({ s with isStarted := true, startTime := some now }, trackVideoStart s)
    let s1 := r.1
    let s2 := if s1.startTime = none then { s1 with startTime := some now } else s1
    (s2, r.2)
  | .h5timeupdate t =>
    let s1 := if s.maxWatched < t then { s with maxWatched := t } else s
    trackVideoProgress s1 s1.maxWatched
  | .h5pause now =>
    match s.startTime with
    | some st =>
      ({ s with totalWatchedMs := s.totalWatchedMs + ((now : ℤ) - (st : ℤ)),
                startTime := none }, [])
    | none => (s, [])
  | .h5ended now => trackVideoComplete s now
  | .vimeoPlay now =>
    if s.isStarted then
      if s.startTime = none then ({ s with startTime := some now }, [])
      else (s, [])
    else ({ s with isStarted := true, startTime := some now }, trackVideoStart s)
  | .vimeoPause now =>
    match s.startTime with
    | some st =>
      ({ s with totalWatchedMs := s.totalWatchedMs + ((now : ℤ) - (st : ℤ)),
                startTime := none }, [])
    | none => (s, [])
  | .vimeoTimeupdate hasData t d =>
    if hasData then
      let s1 := if s.duration = 0 ∧ d ≠ 0 then { s with duration := d } else s
      let s2 := if s1.maxWatched < t then { s1 with maxWatched := t } else s1
      trackVideoProgress s2 s2.maxWatched
    else (s, [])
  | .vimeoEnded now => trackVideoComplete s now
  | .unload now => videoHandlePageUnload s now

/-- Running a whole sequence of delivered signals, accumulating the emitted
analytics calls in order. -/
def runVideo (s : VideoState) : List VEvent → VideoState × List GAEvent
  | [] => (s, [])
  | e :: es =>
    let r := videoStep s e
    let r2 := runVideo r.1 es
    (r2.1, r.2 ++ r2.2)

/-- The videoState object as initialised at the top of ga-video.js
(videoType is fixed at setup; it never affects control flow). -/
def initVideoState (vt : String) : VideoState :=
  { isStarted := false, duration := 0, maxWatched := 0, progressTracked := [],
    startTime := none, totalWatchedMs := 0, videoType := vt }

theorem trackVideoProgress_maxWatched (s : VideoState) (cs : ℚ) :
    (trackVideoProgress s cs).1.maxWatched = s.maxWatched := by
  unfold trackVideoProgress
  split <;> rfl

theorem videoStep_maxWatched_mono (s : VideoState) (e : VEvent) :
    s.maxWatched ≤ (videoStep s e).1.maxWatched := by
  cases e <;>
    simp only [videoStep, trackVideoComplete, videoHandlePageUnload,
      trackVideoProgress_maxWatched]
  case loadedmetadata d => exact le_refl _
  case h5play now =>
    split <;> split <;> simp
  case h5timeupdate t =>
    split
    next h => simpa using le_of_lt h
    next => exact le_refl _
  case h5pause now => cases s.startTime <;> simp
  case h5ended now => cases s.startTime <;> simp
  case vimeoPlay now => split <;> [skip; simp] <;> split <;> simp
  case vimeoPause now => cases s.startTime <;> simp
  case vimeoTimeupdate hasData t d =>
    split
    · split <;> split <;> rw [trackVideoProgress_maxWatched] <;> simp_all [le_of_lt]
    · exact le_refl _
  case vimeoEnded now => cases s.startTime <;> simp
  case unload now => split <;> [cases s.startTime <;> simp; simp]

theorem runVideo_maxWatched_mono (s : VideoState) (es : List VEvent) :
    s.maxWatched ≤ (runVideo s es).1.maxWatched := by
  induction es generalizing s with
  | nil => exact le_refl _
  | cons e es ih =>
    exact le_trans (videoStep_maxWatched_mono s e) (ih (videoStep s e).1)

theorem runVideo_append (s : VideoState) (l1 l2 : List VEvent) :
    runVideo s (l1 ++ l2) =
      ((runVideo (runVideo s l1).1 l2).1,
        (runVideo s l1).2 ++ (runVideo (runVideo s l1).1 l2).2) := by
  induction l1 generalizing s with
  | nil => simp [runVideo]
  | cons e es ih => simp [runVideo, ih, List.append_assoc]

/-- C1: for every sequence of progress updates delivered to the media
observer (HTML5 timeupdate events or embedded-player timeupdate messages,
in any order, including positions that regress), maxWatchedSeconds
(maxWatched in videoState) is monotonically non-decreasing over the
lifetime of the observer: along any trace extension the value never
drops. -/
theorem maxWatched_monotone (s : VideoState) (l1 l2 : List VEvent) :
    (runVideo s l1).1.maxWatched ≤ (runVideo s (l1 ++ l2)).1.maxWatched := by
  rw [runVideo_append]
  exact runVideo_maxWatched_mono _ l2

/-- The milestone values carried by the video_progress events of an output
trace, in emission order. -/
def mileOf : List GAEvent → List ℚ
  | [] => []
  | .video_progress m _ _ :: es => m :: mileOf es
  | .video_start _ _ :: es => mileOf es
  | .video_complete _ _ _ _ _ _ :: es => mileOf es

theorem mileOf_append (l1 l2 : List GAEvent) :
    mileOf (l1 ++ l2) = mileOf l1 ++ mileOf l2 := by
  induction l1 with
  | nil => rfl
  | cons e l ih => cases e <;> simp [mileOf, ih]

theorem mileOf_map_progress (l : List ℚ) (d : ℚ) (v : String) :
    mileOf (l.map fun m => GAEvent.video_progress m d v) = l := by
  induction l with
  | nil => rfl
  | cons a l ih => simp [mileOf, ih]

theorem trackVideoProgressAux_fst_mem (ms : List ℚ) (cs : ℚ) (tr : List ℚ) (x : ℚ) :
    x ∈ (trackVideoProgressAux ms cs tr).1 ↔ x ∈ tr ∨ (x ∈ ms ∧ x ≤ cs) := by
  induction ms generalizing tr with
  | nil => simp [trackVideoProgressAux]
  | cons m ms ih =>
    by_cases h : m ≤ cs ∧ m ∉ tr
    · rw [trackVideoProgressAux, if_pos h]
      rw [ih]
      simp only [List.mem_cons]
      constructor
      · rintro ((rfl | hx) | ⟨hx, hc⟩)
        · exact Or.inr ⟨Or.inl rfl, h.1⟩
        · exact Or.inl hx
        · exact Or.inr ⟨Or.inr hx, hc⟩
      · rintro (hx | ⟨rfl | hx, hc⟩)
        · exact Or.inl (Or.inr hx)
        · exact Or.inl (Or.inl rfl)
        · exact Or.inr ⟨hx, hc⟩
    · rw [trackVideoProgressAux, if_neg h]
      rw [ih]
      simp only [List.mem_cons]
      constructor
      · rintro (hx | ⟨hx, hc⟩)
        · exact Or.inl hx
        · exact Or.inr ⟨Or.inr hx, hc⟩
      · rintro (hx | ⟨rfl | hx, hc⟩)
        · exact Or.inl hx
        · push_neg at h
          exact Or.inl (h hc)
        · exact Or.inr ⟨hx, hc⟩

theorem trackVideoProgressAux_snd_sublist (ms : List ℚ) (cs : ℚ) (tr : List ℚ) :
    List.Sublist (trackVideoProgressAux ms cs tr).2 ms := by
  induction ms generalizing tr with
  | nil => simp [trackVideoProgressAux]
  | cons m ms ih =>
    rw [trackVideoProgressAux]
    split
    · exact List.Sublist.cons₂ m (ih _)
    · exact List.Sublist.cons m (ih tr)

theorem trackVideoProgressAux_snd_mem (ms : List ℚ) (cs : ℚ) (tr : List ℚ) (x : ℚ)
    (hx : x ∈ (trackVideoProgressAux ms cs tr).2) : x ∈ ms ∧ x ≤ cs ∧ x ∉ tr := by
  induction ms generalizing tr with
  | nil => simp [trackVideoProgressAux] at hx
  | cons m ms ih =>
    rw [trackVideoProgressAux] at hx
    by_cases h : m ≤ cs ∧ m ∉ tr
    · rw [if_pos h] at hx
      rcases List.mem_cons.mp hx with rfl | hx2
      · exact ⟨List.mem_cons_self _ _, h.1, h.2⟩
      · obtain ⟨h1, h2, h3⟩ := ih _ hx2
        exact ⟨List.mem_cons_of_mem _ h1, h2, fun hc => h3 (List.mem_cons_of_mem _ hc)⟩
    · rw [if_neg h] at hx
      obtain ⟨h1, h2, h3⟩ := ih _ hx
      exact ⟨List.mem_cons_of_mem _ h1, h2, h3⟩

theorem trackVideoProgressAux_snd_mem_iff (ms : List ℚ) (hnd : ms.Nodup)
    (cs : ℚ) (tr : List ℚ) (x : ℚ) :
    x ∈ (trackVideoProgressAux ms cs tr).2 ↔ x ∈ ms ∧ x ≤ cs ∧ x ∉ tr := by
  induction ms generalizing tr with
  | nil => simp [trackVideoProgressAux]
  | cons m ms ih =>
    obtain ⟨hm, hnd2⟩ := List.nodup_cons.mp hnd
    rw [trackVideoProgressAux]
    by_cases h : m ≤ cs ∧ m ∉ tr
    · rw [if_pos h]
      constructor
      · intro hx
        rcases List.mem_cons.mp hx with rfl | hx2
        · exact ⟨List.mem_cons_self _ _, h.1, h.2⟩
        · obtain ⟨h1, h2, h3⟩ := (ih hnd2 (m :: tr)).mp hx2
          exact ⟨List.mem_cons_of_mem _ h1, h2, fun hc => h3 (List.mem_cons_of_mem _ hc)⟩
      · rintro ⟨h1, h2, h3⟩
        rcases List.mem_cons.mp h1 with rfl | h1b
        · exact List.mem_cons_self _ _
        · refine List.mem_cons_of_mem _ ((ih hnd2 (m :: tr)).mpr ⟨h1b, h2, fun hc => ?_⟩)
          rcases List.mem_cons.mp hc with rfl | hc2
          · exact hm h1b
          · exact h3 hc2
    · rw [if_neg h]
      rw [ih hnd2 tr]
      constructor
      · rintro ⟨h1, h2, h3⟩
        exact ⟨List.mem_cons_of_mem _ h1, h2, h3⟩
      · rintro ⟨h1, h2, h3⟩
        rcases List.mem_cons.mp h1 with rfl | h1b
        · exact absurd ⟨h2, h3⟩ h
        · exact ⟨h1b, h2, h3⟩

/-- The invariant tying the milestone bookkeeping of videoState to the
emitted trace: emitted milestone values are strictly increasing, the
progressTracked set is exactly the set of emitted milestone values, every
tracked milestone is a configured milestone already reached by maxWatched,
and the tracked set is downward closed inside the configured milestone
list. -/
def VideoInv (s : VideoState) (out : List GAEvent) : Prop :=
  List.Pairwise (· < ·) (mileOf out) ∧
  (∀ m : ℚ, m ∈ s.progressTracked ↔ m ∈ mileOf out) ∧
  (∀ m ∈ s.progressTracked, m ∈ PROGRESS_SECONDS ∧ m ≤ s.maxWatched) ∧
  (∀ m ∈ PROGRESS_SECONDS, ∀ x ∈ s.progressTracked, m ≤ x → m ∈ s.progressTracked)

theorem PROGRESS_SECONDS_sorted : List.Pairwise (· < ·) PROGRESS_SECONDS := by
  decide

theorem PROGRESS_SECONDS_nodup : PROGRESS_SECONDS.Nodup := by decide

theorem inv_transfer (s s2 : VideoState) (out : List GAEvent)
    (htr : s2.progressTracked = s.progressTracked)
    (hmw : s.maxWatched ≤ s2.maxWatched)
    (h : VideoInv s out) : VideoInv s2 out := by
  obtain ⟨h1, h2, h3, h4⟩ := h
  refine ⟨h1, ?_, ?_, ?_⟩
  · intro m; rw [htr]; exact h2 m
  · intro m hm
    rw [htr] at hm
    exact ⟨(h3 m hm).1, le_trans (h3 m hm).2 hmw⟩
  · intro m hmP x hx hle
    rw [htr] at hx ⊢
    exact h4 m hmP x hx hle

theorem inv_of_no_progress (s s2 : VideoState) (out l : List GAEvent)
    (h : VideoInv s out)
    (htr : s2.progressTracked = s.progressTracked)
    (hmw : s.maxWatched ≤ s2.maxWatched)
    (hml : mileOf l = []) : VideoInv s2 (out ++ l) := by
  have h2 := inv_transfer s s2 out htr hmw h
  obtain ⟨h1, hiff, h3, h4⟩ := h2
  refine ⟨?_, ?_, h3, h4⟩
  · rw [mileOf_append, hml, List.append_nil]; exact h1
  · intro m; rw [mileOf_append, hml, List.append_nil]; exact hiff m

theorem videoInvProgress (s : VideoState) (out : List GAEvent)
    (_hd : ¬s.duration = 0) (h : VideoInv s out) :
    VideoInv
      { s with progressTracked :=
          (trackVideoProgressAux PROGRESS_SECONDS s.maxWatched s.progressTracked).1 }
      (out ++
        (trackVideoProgressAux PROGRESS_SECONDS s.maxWatched s.progressTracked).2.map
          fun m => GAEvent.video_progress m s.duration s.videoType) := by
  obtain ⟨hp, hiff, hbound, hdc⟩ := h
  refine ⟨?_, ?_, ?_, ?_⟩
  · rw [mileOf_append, mileOf_map_progress]
    refine List.pairwise_append.mpr ⟨hp, ?_, ?_⟩
    · exact PROGRESS_SECONDS_sorted.sublist (trackVideoProgressAux_snd_sublist _ _ _)
    · intro a ha b hb
      obtain ⟨hbP, hbcs, hbtr⟩ := trackVideoProgressAux_snd_mem _ _ _ b hb
      by_contra hab
      push_neg at hab
      exact hbtr (hdc b hbP a ((hiff a).mpr ha) hab)
  · intro m
    show m ∈ (trackVideoProgressAux PROGRESS_SECONDS s.maxWatched s.progressTracked).1 ↔ _
    rw [trackVideoProgressAux_fst_mem, mileOf_append, mileOf_map_progress, List.mem_append,
      trackVideoProgressAux_snd_mem_iff PROGRESS_SECONDS PROGRESS_SECONDS_nodup, ← hiff m]
    constructor
    · rintro (htr | ⟨hP, hcs⟩)
      · exact Or.inl htr
      · by_cases htr2 : m ∈ s.progressTracked
        · exact Or.inl htr2
        · exact Or.inr ⟨hP, hcs, htr2⟩
    · rintro (htr | ⟨hP, hcs, htr⟩)
      · exact Or.inl htr
      · exact Or.inr ⟨hP, hcs⟩
  · intro m hm
    have hm2 : m ∈ (trackVideoProgressAux PROGRESS_SECONDS s.maxWatched s.progressTracked).1 := hm
    rw [trackVideoProgressAux_fst_mem] at hm2
    show m ∈ PROGRESS_SECONDS ∧ m ≤ s.maxWatched
    rcases hm2 with htr | ⟨hP, hcs⟩
    · exact hbound m htr
    · exact ⟨hP, hcs⟩
  · intro m hmP x hx hle
    have hx2 : x ∈ (trackVideoProgressAux PROGRESS_SECONDS s.maxWatched s.progressTracked).1 := hx
    rw [trackVideoProgressAux_fst_mem] at hx2
    show m ∈ (trackVideoProgressAux PROGRESS_SECONDS s.maxWatched s.progressTracked).1
    rw [trackVideoProgressAux_fst_mem]
    rcases hx2 with htr | ⟨hxP, hxcs⟩
    · exact Or.inl (hdc m hmP x htr hle)
    · exact Or.inr ⟨hmP, le_trans hle hxcs⟩

theorem trackVideoProgress_inv (s : VideoState) (out : List GAEvent)
    (h : VideoInv s out) :
    VideoInv (trackVideoProgress s s.maxWatched).1
      (out ++ (trackVideoProgress s s.maxWatched).2) := by
  by_cases hd : s.duration = 0
  · unfold trackVideoProgress
    rw [if_pos hd]
    exact inv_of_no_progress s s out [] h rfl le_rfl rfl
  · unfold trackVideoProgress
    rw [if_neg hd]
    exact videoInvProgress s out hd h

theorem inv_update_maxW (s : VideoState) (t : ℚ) (out : List GAEvent)
    (h : VideoInv s out) :
    VideoInv (if s.maxWatched < t then { s with maxWatched := t } else s) out := by
  split
  next hlt => exact inv_transfer s _ out rfl (le_of_lt hlt) h
  next => exact h

theorem inv_update_duration (s : VideoState) (d : ℚ) (out : List GAEvent)
    (h : VideoInv s out) :
    VideoInv (if s.duration = 0 ∧ d ≠ 0 then { s with duration := d } else s) out := by
  split
  next => exact inv_transfer s _ out rfl le_rfl h
  next => exact h

theorem videoStep_inv (s : VideoState) (out : List GAEvent) (e : VEvent)
    (h : VideoInv s out) : VideoInv (videoStep s e).1 (out ++ (videoStep s e).2) := by
  cases e with
  | loadedmetadata d =>
    exact inv_of_no_progress s _ out _ h rfl le_rfl rfl
  | h5play now =>
    refine inv_of_no_progress s _ out _ h ?_ ?_ ?_ <;>
      · simp only [videoStep]
        cases s.isStarted <;> cases hst : s.startTime <;>
          simp [hst, mileOf, trackVideoStart]
  | h5timeupdate t =>
    simp only [videoStep]
    exact trackVideoProgress_inv _ out (inv_update_maxW s t out h)
  | h5pause now =>
    refine inv_of_no_progress s _ out _ h ?_ ?_ ?_ <;>
      · simp only [videoStep]
        cases hst : s.startTime <;> simp [hst, mileOf]
  | h5ended now =>
    refine inv_of_no_progress s _ out _ h ?_ ?_ ?_ <;>
      · simp only [videoStep, trackVideoComplete]
        cases hst : s.startTime <;> simp [hst, mileOf]
  | vimeoPlay now =>
    refine inv_of_no_progress s _ out _ h ?_ ?_ ?_ <;>
      · simp only [videoStep]
        cases s.isStarted <;> cases hst : s.startTime <;>
          simp [hst, mileOf, trackVideoStart]
  | vimeoPause now =>
    refine inv_of_no_progress s _ out _ h ?_ ?_ ?_ <;>
      · simp only [videoStep]
        cases hst : s.startTime <;> simp [hst, mileOf]
  | vimeoTimeupdate hasData t d =>
    cases hasData with
    | false =>
      simp only [videoStep]
      simpa using h
    | true =>
      simp only [videoStep]
      exact trackVideoProgress_inv _ out
        (inv_update_maxW _ t out (inv_update_duration s d out h))
  | vimeoEnded now =>
    refine inv_of_no_progress s _ out _ h ?_ ?_ ?_ <;>
      · simp only [videoStep, trackVideoComplete]
        cases hst : s.startTime <;> simp [hst, mileOf]
  | unload now =>
    refine inv_of_no_progress s _ out _ h ?_ ?_ ?_ <;>
      · simp only [videoStep, videoHandlePageUnload]
        cases s.isStarted <;> cases hst : s.startTime <;> simp [hst, mileOf]

theorem runVideo_inv (es : List VEvent) (s : VideoState) (out : List GAEvent)
    (h : VideoInv s out) : VideoInv (runVideo s es).1 (out ++ (runVideo s es).2) := by
  induction es generalizing s out with
  | nil => simpa [runVideo] using h
  | cons e es ih =>
    have h3 := ih (videoStep s e).1 (out ++ (videoStep s e).2) (videoStep_inv s out e h)
    simpa [runVideo, List.append_assoc] using h3

theorem initVideoInv (vt : String) : VideoInv (initVideoState vt) [] := by
  refine ⟨List.Pairwise.nil, ?_, ?_, ?_⟩ <;> simp [initVideoState, mileOf]

/-- C2: over any sequence of delivered signals from the initial state, the
milestone values of the emitted video_progress events are strictly
increasing in emission order (hence each configured milestone is emitted at
most once and never re-emitted), and every emitted milestone is one of the
configured PROGRESS_SECONDS that maxWatched has already reached or
exceeded.  Because the statement holds for every event sequence, it holds
for every prefix of a trace, so each milestone is only emitted once
maxWatched has reached it at that point. -/
theorem video_progress_milestone_discipline (vt : String) (es : List VEvent) :
    List.Pairwise (· < ·) (mileOf (runVideo (initVideoState vt) es).2) ∧
    (mileOf (runVideo (initVideoState vt) es).2).Nodup ∧
    ∀ m ∈ mileOf (runVideo (initVideoState vt) es).2,
      m ∈ PROGRESS_SECONDS ∧ m ≤ (runVideo (initVideoState vt) es).1.maxWatched := by
  have h := runVideo_inv es (initVideoState vt) [] (initVideoInv vt)
  rw [List.nil_append] at h
  obtain ⟨h1, h2, h3, h4⟩ := h
  refine ⟨h1, h1.nodup, ?_⟩
  intro m hm
  exact h3 m ((h2 m).mpr hm)

/-- Witness for C2 at a concrete trace: duration 100 reported, then a
progress update to 12 seconds; milestone 5 is among the emitted milestones
and the theorem yields its properties. -/
theorem video_progress_milestone_discipline_witness :
    (5 : ℚ) ∈ PROGRESS_SECONDS ∧
      (5 : ℚ) ≤ (runVideo (initVideoState "html5")
        [VEvent.loadedmetadata 100, VEvent.h5timeupdate 12]).1.maxWatched :=
  (video_progress_milestone_discipline "html5"
      [VEvent.loadedmetadata 100, VEvent.h5timeupdate 12]).2.2 5 (by decide)

/-- The percent_watched values carried by the video_complete events of an
output trace, in emission order. -/
def completePercents : List GAEvent → List ℤ
  | [] => []
  | .video_complete _ p _ _ _ _ :: es => p :: completePercents es
  | .video_start _ _ :: es => completePercents es
  | .video_progress _ _ _ :: es => completePercents es

/-- C3: at video completion — natural end (trackVideoComplete, reached from
the ended events of both transports) or the unload flush
(videoHandlePageUnload, which emits only when started and playing) — the
emitted percent_watched equals Math.round(maxWatched / duration * 100)
when the duration is positive, and 0 when the duration is 0 (unknown). -/
theorem video_complete_percent (s : VideoState) (now : ℕ) (st : ℕ) :
    (0 < s.duration →
      completePercents (trackVideoComplete s now).2
          = [jsRound (s.maxWatched / s.duration * 100)] ∧
      (s.isStarted = true → s.startTime = some st →
        completePercents (videoHandlePageUnload s now).2
          = [jsRound (s.maxWatched / s.duration * 100)])) ∧
    (s.duration = 0 →
      completePercents (trackVideoComplete s now).2 = [0] ∧
      (s.isStarted = true → s.startTime = some st →
        completePercents (videoHandlePageUnload s now).2 = [0])) := by
  refine ⟨fun hdpos => ⟨?_, fun hstart hst => ?_⟩,
          fun hd0 => ⟨?_, fun hstart hst => ?_⟩⟩
  · cases h : s.startTime <;> simp [trackVideoComplete, completePercents, h, hdpos]
  · simp [videoHandlePageUnload, hstart, hst, completePercents, hdpos]
  · cases h : s.startTime <;>
      simp [trackVideoComplete, completePercents, h, hd0, lt_irrefl]
  · simp [videoHandlePageUnload, hstart, hst, completePercents, hd0, lt_irrefl]

/-- Witness for C3 at concrete states: a playing 100-second video with
maxWatched 37 reports percent 37 on both completion paths, and a playing
video with unknown duration reports percent 0 on both paths. -/
theorem video_complete_percent_witness :
    completePercents (trackVideoComplete
        ⟨true, 100, 37, [], some 0, 0, "html5"⟩ 5000).2
        = [jsRound ((37 : ℚ) / 100 * 100)] ∧
    completePercents (videoHandlePageUnload
        ⟨true, 100, 37, [], some 0, 0, "html5"⟩ 5000).2
        = [jsRound ((37 : ℚ) / 100 * 100)] ∧
    completePercents (trackVideoComplete
        ⟨true, 0, 37, [], some 0, 0, "html5"⟩ 5000).2 = [0] ∧
    completePercents (videoHandlePageUnload
        ⟨true, 0, 37, [], some 0, 0, "html5"⟩ 5000).2 = [0] := by
  have h1 := (video_complete_percent ⟨true, 100, 37, [], some 0, 0, "html5"⟩
    5000 0).1 (by norm_num)
  have h2 := (video_complete_percent ⟨true, 0, 37, [], some 0, 0, "html5"⟩
    5000 0).2 rfl
  exact ⟨h1.1, h1.2 rfl rfl, h2.1, h2.2 rfl rfl⟩

theorem trackVideoProgress_emits (s : VideoState) (cs m : ℚ)
    (hd : ¬s.duration = 0) (hmP : m ∈ PROGRESS_SECONDS)
    (hmtr : m ∉ s.progressTracked) (hmle : m ≤ cs) :
    m ∈ mileOf (trackVideoProgress s cs).2 := by
  unfold trackVideoProgress
  rw [if_neg hd]
  show m ∈ mileOf ((trackVideoProgressAux PROGRESS_SECONDS cs s.progressTracked).2.map
      fun x => GAEvent.video_progress x s.duration s.videoType)
  rw [mileOf_map_progress]
  exact (trackVideoProgressAux_snd_mem_iff _ PROGRESS_SECONDS_nodup _ _ _).mpr
    ⟨hmP, hmle, hmtr⟩

/-- C10: while the duration recorded in videoState is still 0 (unknown), a
progress update emits no analytics event at all — neither over the HTML5
transport nor over a Vimeo timeupdate that carries no usable duration —
even when maxWatched already meets configured milestones; and as soon as
the duration is known (nonzero), a progress update emits every due
un-emitted milestone. -/
theorem no_progress_while_duration_unknown (s s2 : VideoState) (t m : ℚ)
    (hd : s.duration = 0) (hd2 : ¬s2.duration = 0) :
    (videoStep s (.h5timeupdate t)).2 = [] ∧
    (videoStep s (.vimeoTimeupdate true t 0)).2 = [] ∧
    (m ∈ PROGRESS_SECONDS → m ∉ s2.progressTracked →
      m ≤ max s2.maxWatched t →
      m ∈ mileOf (videoStep s2 (.h5timeupdate t)).2) := by
  refine ⟨?_, ?_, fun hmP hmtr hmle => ?_⟩
  · simp only [videoStep]
    split <;> simp [trackVideoProgress, hd]
  · simp only [videoStep]
    simp only [ne_eq, not_true_eq_false, and_false, if_false, if_true]
    split <;> simp [trackVideoProgress, hd]
  · simp only [videoStep]
    split
    next hlt =>
      refine trackVideoProgress_emits _ t m hd2 hmP hmtr ?_
      rwa [max_eq_right (le_of_lt hlt)] at hmle
    next hge =>
      refine trackVideoProgress_emits s2 s2.maxWatched m hd2 hmP hmtr ?_
      rwa [max_eq_left (not_lt.mp hge)] at hmle

/-- Witness for C10 at concrete inputs: with duration unknown a progress
update to 50 seconds emits nothing; with duration 100 known, milestone 5 is
emitted by a progress update to 7 seconds. -/
theorem no_progress_while_duration_unknown_witness :
    (videoStep (initVideoState "html5") (VEvent.h5timeupdate 50)).2 = [] ∧
    (videoStep (initVideoState "html5") (VEvent.vimeoTimeupdate true 50 0)).2 = [] ∧
    (5 : ℚ) ∈ mileOf (videoStep ⟨true, 100, 0, [], some 0, 0, "html5"⟩
        (VEvent.h5timeupdate 7)).2 := by
  have h := no_progress_while_duration_unknown (initVideoState "html5")
    ⟨true, 100, 0, [], some 0, 0, "html5"⟩ 50 5 rfl (by norm_num)
  have h2 := no_progress_while_duration_unknown (initVideoState "html5")
    ⟨true, 100, 0, [], some 0, 0, "html5"⟩ 7 5 rfl (by norm_num)
  exact ⟨h.1, h.2.1, h2.2.2 (by decide) (by decide) (by decide)⟩

/-- MIN_DWELL_MS from src/js/ga-carousel.js. -/
def MIN_DWELL_MS : ℤ := 2000

/-- carouselState from src/js/ga-carousel.js, plus lastSlideIndex, the
closure variable of the touchend listener installed by
setupNavigationListeners.  slideViewedFlags models the JS array including
holes created by out-of-range element assignment: `some b` is a stored
boolean, `none` a hole (Array.prototype.every skips holes).  Dwell times
are Date.now() differences, hence integers. -/
structure CarouselState where
  isStarted : Bool
  totalSlides : ℕ
  currentSlide : ℕ
  slideStartTime : Option ℕ
  slideViewedFlags : List (Option Bool)
  totalDwellTime : ℤ
  slideHistory : List (ℕ × ℤ × ℕ)
  lastSlideIndex : ℕ
deriving DecidableEq

/-- The analytics calls ga-carousel.js makes through GALite.track. -/
inductive CGEvent where
  | carousel_start (totalSlides : ℕ)
  | slide_view (slideIndex : ℕ) (direction : String)
  | dwell_end (slideIndex : ℕ) (dwellMs : ℤ)
  | carousel_complete (totalDwellMs : ℤ) (allViewed : Bool)
deriving DecidableEq

/-- JS assignment flags[idx] = true: in range it overwrites; past the end
it extends the array with holes up to idx. -/
def setViewedFlag (flags : List (Option Bool)) (idx : ℕ) : List (Option Bool) :=
  if idx < flags.length then flags.set idx (some true)
  else flags ++ List.replicate (idx - flags.length) none ++ [some true]

/-- Array.prototype.every(viewed => viewed): holes are skipped (count as
passing), stored values must be truthy. -/
def carouselAllViewed (flags : List (Option Bool)) : Bool :=
  flags.all fun o => o.getD true

/-- trackCarouselStart from ga-carousel.js. -/
def trackCarouselStart (s : CarouselState) : CarouselState × List CGEvent :=
  if s.isStarted then (s, [])
  else ({ s with isStarted := true }, [.carousel_start s.totalSlides])

/-- trackSlideView from ga-carousel.js. -/
def trackSlideView (s : CarouselState) (slideIndex : ℕ) (direction : String) :
    CarouselState × List CGEvent :=
  ({ s with currentSlide := slideIndex }, [.slide_view slideIndex direction])

/-- trackDwellEnd from ga-carousel.js: emits dwell_end, marks the slide
viewed when the dwell reaches MIN_DWELL_MS, accumulates the total, and
appends to the history. -/
def trackDwellEnd (s : CarouselState) (slideIndex : ℕ) (dwellMs : ℤ) (now : ℕ) :
    CarouselState × List CGEvent :=
  ({ s with
      slideViewedFlags :=
        if MIN_DWELL_MS ≤ dwellMs then setViewedFlag s.slideViewedFlags slideIndex
        else s.slideViewedFlags,
      totalDwellTime := s.totalDwellTime + dwellMs,
      slideHistory := s.slideHistory ++ [(slideIndex, dwellMs, now)] },
    [.dwell_end slideIndex dwellMs])

/-- handleSlideChange from ga-carousel.js: flush the dwell of the slide
being left (when a slide entry timestamp exists), emit the new slide view,
and reset the entry timestamp to now. -/
def handleSlideChange (s : CarouselState) (newSlideIndex : ℕ) (direction : String)
    (now : ℕ) : CarouselState × List CGEvent :=
  match s.slideStartTime with
  | some t0 =>
    ({ (trackSlideView (trackDwellEnd s s.currentSlide ((now : ℤ) - (t0 : ℤ)) now).1
          newSlideIndex direction).1 with slideStartTime := some now },
      (trackDwellEnd s s.currentSlide ((now : ℤ) - (t0 : ℤ)) now).2 ++
        (trackSlideView (trackDwellEnd s s.currentSlide ((now : ℤ) - (t0 : ℤ)) now).1
          newSlideIndex direction).2)
  | none =>
    ({ (trackSlideView s newSlideIndex direction).1 with slideStartTime := some now },
      (trackSlideView s newSlideIndex direction).2)

/-- startCarouselTracking from ga-carousel.js: carousel_start bookkeeping,
the initial slide_view of slide 0, and the entry timestamp of slide 0. -/
def startCarouselTracking (s : CarouselState) (now : ℕ) :
    CarouselState × List CGEvent :=
  ({ (trackSlideView (trackCarouselStart s).1 0 "start").1 with
      slideStartTime := some now },
    (trackCarouselStart s).2 ++ (trackSlideView (trackCarouselStart s).1 0 "start").2)

/-- trackCarouselComplete from ga-carousel.js: flush the current slide's
open dwell (clearing the entry timestamp), then emit carousel_complete
with the accumulated total and the all-viewed check. -/
def trackCarouselComplete (s : CarouselState) (now : ℕ) :
    CarouselState × List CGEvent :=
  match s.slideStartTime with
  | some t0 =>
    ({ (trackDwellEnd s s.currentSlide ((now : ℤ) - (t0 : ℤ)) now).1 with
        slideStartTime := none },
      (trackDwellEnd s s.currentSlide ((now : ℤ) - (t0 : ℤ)) now).2 ++
        [.carousel_complete
          (trackDwellEnd s s.currentSlide ((now : ℤ) - (t0 : ℤ)) now).1.totalDwellTime
          (carouselAllViewed
            (trackDwellEnd s s.currentSlide ((now : ℤ) - (t0 : ℤ)) now).1.slideViewedFlags)])
  | none =>
    (s, [.carousel_complete s.totalDwellTime (carouselAllViewed s.slideViewedFlags)])

/-- handlePageUnload from ga-carousel.js: flush the open dwell — without
clearing slideStartTime — then, if tracking had started, run
trackCarouselComplete (which flushes the still-open dwell again). -/
def carouselHandlePageUnload (s : CarouselState) (now : ℕ) :
    CarouselState × List CGEvent :=
  match s.slideStartTime with
  | some t0 =>
    if (trackDwellEnd s s.currentSlide ((now : ℤ) - (t0 : ℤ)) now).1.isStarted then
      ((trackCarouselComplete
          (trackDwellEnd s s.currentSlide ((now : ℤ) - (t0 : ℤ)) now).1 now).1,
        (trackDwellEnd s s.currentSlide ((now : ℤ) - (t0 : ℤ)) now).2 ++
          (trackCarouselComplete
            (trackDwellEnd s s.currentSlide ((now : ℤ) - (t0 : ℤ)) now).1 now).2)
    else trackDwellEnd s s.currentSlide ((now : ℤ) - (t0 : ℤ)) now
  | none =>
    if s.isStarted then trackCarouselComplete s now else (s, [])

/-- getCurrentSlideIndex from ga-carousel.js, with the transform string
abstracted to its parsed translateX percentage: `none` when the track, its
inline transform, or a regex match is missing (all three return 0), `some
p` when the transform matches translateX(p%); the index is then
Math.round(Math.abs(p) / 100), with no clamping to the slide count. -/
def getCurrentSlideIndex (sig : Option ℚ) : ℕ :=
  match sig with
  | none => 0
  | some p => (jsRound (|p| / 100)).toNat

/-- The signals ga-carousel.js reacts to: the start gesture (tap-to-start
or immediate start), a MutationObserver style-change detection reading the
track transform, a touchend reading the track transform (with its own
lastSlideIndex closure state), a navigation-dot click carrying the dot's
index, a direct detected slide-index change (handleSlideChange), and the
page-unload lifecycle signal. -/
inductive CEvent where
  | start (now : ℕ)
  | detect (sig : Option ℚ) (now : ℕ)
  | touch (sig : Option ℚ) (now : ℕ)
  | dot (idx : ℕ) (now : ℕ)
  | change (newIdx : ℕ) (direction : String) (now : ℕ)
  | unload (now : ℕ)
deriving DecidableEq

/-- One delivered signal: the corresponding ga-carousel.js handler body. -/
def carouselStep (s : CarouselState) : CEvent → CarouselState × List CGEvent
  | .start now => startCarouselTracking s now
  | .detect sig now =>
    if getCurrentSlideIndex sig ≠ s.currentSlide then
      handleSlideChange s (getCurrentSlideIndex sig)
        (if s.currentSlide < getCurrentSlideIndex sig then "next" else "prev") now
    else (s, [])
  | .touch sig now =>
    if getCurrentSlideIndex sig ≠ s.lastSlideIndex then
      ({ (handleSlideChange s (getCurrentSlideIndex sig)
            (if s.lastSlideIndex < getCurrentSlideIndex sig then "next" else "prev")
            now).1 with lastSlideIndex := getCurrentSlideIndex sig },
        (handleSlideChange s (getCurrentSlideIndex sig)
          (if s.lastSlideIndex < getCurrentSlideIndex sig then "next" else "prev")
          now).2)
    else (s, [])
  | .dot idx now => handleSlideChange s idx "jump" now
  | .change newIdx direction now => handleSlideChange s newIdx direction now
  | .unload now => carouselHandlePageUnload s now

/-- Running a whole sequence of carousel signals, accumulating the emitted
analytics calls in order. -/
def runCarousel (s : CarouselState) : List CEvent → CarouselState × List CGEvent
  | [] => (s, [])
  | e :: es =>
    ((runCarousel (carouselStep s e).1 es).1,
      (carouselStep s e).2 ++ (runCarousel (carouselStep s e).1 es).2)

/-- carouselState after initCarouselTracking found n slides: totalSlides
and the viewed-flags array are filled in, tracking not yet started. -/
def initCarouselState (n : ℕ) : CarouselState :=
  { isStarted := false, totalSlides := n, currentSlide := 0,
    slideStartTime := none, slideViewedFlags := List.replicate n (some false),
    totalDwellTime := 0, slideHistory := [], lastSlideIndex := 0 }

/-- C4 scenario evaluation: 3 slides, dwell 2500ms on slide 0, 500ms on
slide 1, 3000ms on slide 2, then unload.  The viewed flags end as
[true, false, true] and all_viewed is false, but the unload handler
flushes the open dwell of slide 2 twice — its own flush does not clear
slideStartTime and trackCarouselComplete then flushes again — so dwell_end
for slide 2 is emitted twice and carousel_complete carries total_dwell_ms
9000 rather than the 6000 the user actually dwelt. -/
theorem carousel_unload_scenario_eval :
    (runCarousel (initCarouselState 3)
        [CEvent.start 0, CEvent.change 1 "next" 2500, CEvent.change 2 "next" 3000,
          CEvent.unload 6000]).1.slideViewedFlags
      = [some true, some false, some true] ∧
    (runCarousel (initCarouselState 3)
        [CEvent.start 0, CEvent.change 1 "next" 2500, CEvent.change 2 "next" 3000,
          CEvent.unload 6000]).1.totalDwellTime = 9000 ∧
    (runCarousel (initCarouselState 3)
        [CEvent.start 0, CEvent.change 1 "next" 2500, CEvent.change 2 "next" 3000,
          CEvent.unload 6000]).2
      = [CGEvent.carousel_start 3, CGEvent.slide_view 0 "start",
         CGEvent.dwell_end 0 2500, CGEvent.slide_view 1 "next",
         CGEvent.dwell_end 1 500, CGEvent.slide_view 2 "next",
         CGEvent.dwell_end 2 3000, CGEvent.dwell_end 2 3000,
         CGEvent.carousel_complete 9000 false] := by
  decide

/-- Number of video_complete events in an output trace. -/
def countVideoCompletes : List GAEvent → ℕ
  | [] => 0
  | .video_complete _ _ _ _ _ _ :: es => countVideoCompletes es + 1
  | .video_start _ _ :: es => countVideoCompletes es
  | .video_progress _ _ _ :: es => countVideoCompletes es

/-- Number of carousel_complete events in an output trace. -/
def countCarouselCompletes : List CGEvent → ℕ
  | [] => 0
  | .carousel_complete _ _ :: es => countCarouselCompletes es + 1
  | .carousel_start _ :: es => countCarouselCompletes es
  | .slide_view _ _ :: es => countCarouselCompletes es
  | .dwell_end _ _ :: es => countCarouselCompletes es

/-- C9 evaluation: both unload handlers are registered for beforeunload and
pagehide, and neither flush is idempotent — the video handler never clears
startTime on the unload path and the carousel handler leaves isStarted
set — so when both lifecycle signals fire in sequence the terminal
video_complete and carousel_complete events are each emitted twice. -/
theorem unload_flush_duplicated_eval :
    countVideoCompletes (runVideo (initVideoState "html5")
        [VEvent.h5play 0, VEvent.unload 5000, VEvent.unload 5000]).2 = 2 ∧
    countCarouselCompletes (runCarousel (initCarouselState 1)
        [CEvent.start 0, CEvent.unload 4000, CEvent.unload 4000]).2 = 2 := by
  decide

theorem handleSlideChange_currentSlide (s : CarouselState) (i : ℕ) (d : String)
    (now : ℕ) : (handleSlideChange s i d now).1.currentSlide = i := by
  rcases hst : s.slideStartTime with _ | t0 <;>
    simp [handleSlideChange, hst, trackDwellEnd, trackSlideView]

theorem handleSlideChange_slideStartTime (s : CarouselState) (i : ℕ) (d : String)
    (now : ℕ) : (handleSlideChange s i d now).1.slideStartTime = some now := by
  rcases hst : s.slideStartTime with _ | t0 <;>
    simp [handleSlideChange, hst, trackDwellEnd, trackSlideView]

theorem handleSlideChange_out (s : CarouselState) (i : ℕ) (d : String)
    (now entered : ℕ) (hst : s.slideStartTime = some entered) :
    (handleSlideChange s i d now).2
      = [CGEvent.dwell_end s.currentSlide ((now : ℤ) - (entered : ℤ)),
         CGEvent.slide_view i d] := by
  simp [handleSlideChange, hst, trackDwellEnd, trackSlideView]

/-- The trace of detected slide-index changes, as direct handleSlideChange
invocations. -/
def slideChangeTrace : List (ℕ × String × ℕ) → List CEvent
  | [] => []
  | (i, d, now) :: rest => CEvent.change i d now :: slideChangeTrace rest

/-- The event trace handleSlideChange produces for a sequence of detected
changes when the observer currently occupies slide cur entered at time
entered: for each change, one dwell_end of the slide being left
immediately followed by the slide_view of the new slide. -/
def expectedChangeOut (cur entered : ℕ) : List (ℕ × String × ℕ) → List CGEvent
  | [] => []
  | (i, d, now) :: rest =>
    CGEvent.dwell_end cur ((now : ℤ) - (entered : ℤ)) :: CGEvent.slide_view i d ::
      expectedChangeOut i now rest

/-- Number of slide_view events in an output trace. -/
def countSlideViews : List CGEvent → ℕ
  | [] => 0
  | .slide_view _ _ :: es => countSlideViews es + 1
  | .carousel_start _ :: es => countSlideViews es
  | .dwell_end _ _ :: es => countSlideViews es
  | .carousel_complete _ _ :: es => countSlideViews es

theorem runCarousel_changes (es : List (ℕ × String × ℕ)) (s : CarouselState)
    (entered : ℕ) (hst : s.slideStartTime = some entered) :
    (runCarousel s (slideChangeTrace es)).2
      = expectedChangeOut s.currentSlide entered es := by
  induction es generalizing s entered with
  | nil => rfl
  | cons x es ih =>
    obtain ⟨i, d, now⟩ := x
    have h3 := ih (handleSlideChange s i d now).1 now
      (handleSlideChange_slideStartTime s i d now)
    show (handleSlideChange s i d now).2 ++
        (runCarousel (handleSlideChange s i d now).1 (slideChangeTrace es)).2
      = expectedChangeOut s.currentSlide entered ((i, d, now) :: es)
    rw [handleSlideChange_out s i d now entered hst, h3,
      handleSlideChange_currentSlide]
    rfl

theorem countSlideViews_expected (cur entered : ℕ) (es : List (ℕ × String × ℕ)) :
    countSlideViews (expectedChangeOut cur entered es) = es.length := by
  induction es generalizing cur entered with
  | nil => rfl
  | cons x es ih =>
    obtain ⟨i, d, now⟩ := x
    simp [expectedChangeOut, countSlideViews, ih]

theorem startCarouselTracking_facts (n t0 : ℕ) :
    (carouselStep (initCarouselState n) (CEvent.start t0)).2
        = [CGEvent.carousel_start n, CGEvent.slide_view 0 "start"] ∧
    (carouselStep (initCarouselState n) (CEvent.start t0)).1.slideStartTime
        = some t0 ∧
    (carouselStep (initCarouselState n) (CEvent.start t0)).1.currentSlide = 0 := by
  simp [carouselStep, startCarouselTracking, trackCarouselStart, trackSlideView,
    initCarouselState]

/-- C5: starting from the initialised observer, the trace "start, then any
sequence of detected slide-index changes" emits carousel_start, the
initial slide_view of slide 0, and then, for each detected change, exactly
one dwell_end for the previously occupied slide immediately followed by
the slide_view of the new slide (this is the shape expectedChangeOut
spells out); consequently the number of slide_view events equals the
number of detected index changes plus one. -/
theorem slide_view_count_and_dwell_pairing (n t0 : ℕ)
    (es : List (ℕ × String × ℕ)) :
    (runCarousel (initCarouselState n) (CEvent.start t0 :: slideChangeTrace es)).2
        = CGEvent.carousel_start n :: CGEvent.slide_view 0 "start"
            :: expectedChangeOut 0 t0 es ∧
    countSlideViews (runCarousel (initCarouselState n)
        (CEvent.start t0 :: slideChangeTrace es)).2 = es.length + 1 := by
  obtain ⟨h1, h2, h3⟩ := startCarouselTracking_facts n t0
  have h4 := runCarousel_changes es
    (carouselStep (initCarouselState n) (CEvent.start t0)).1 t0 h2
  rw [h3] at h4
  have heq : (runCarousel (initCarouselState n)
      (CEvent.start t0 :: slideChangeTrace es)).2
      = CGEvent.carousel_start n :: CGEvent.slide_view 0 "start"
          :: expectedChangeOut 0 t0 es := by
    show (carouselStep (initCarouselState n) (CEvent.start t0)).2 ++
        (runCarousel (carouselStep (initCarouselState n) (CEvent.start t0)).1
          (slideChangeTrace es)).2 = _
    rw [h1, h4]
    rfl
  refine ⟨heq, ?_⟩
  rw [heq]
  simp [countSlideViews, countSlideViews_expected]

/-- C8 counterexample: on a started 3-slide carousel, a detected transform
of translateX(-500%) yields index round(500/100) = 5, and handleSlideChange
installs it unclamped, so currentSlide leaves [0, 3). -/
theorem currentSlide_escapes_range :
    (runCarousel (initCarouselState 3)
        [CEvent.start 0, CEvent.detect (some (-500)) 1000]).1.currentSlide = 5 ∧
    ¬((runCarousel (initCarouselState 3)
        [CEvent.start 0, CEvent.detect (some (-500)) 1000]).1.currentSlide < 3) := by
  have h5 : getCurrentSlideIndex (some (-500)) = 5 := by
    norm_num [getCurrentSlideIndex, jsRound, Int.toNat]
  have heq : (runCarousel (initCarouselState 3)
      [CEvent.start 0, CEvent.detect (some (-500)) 1000]).1.currentSlide = 5 := by
    simp [runCarousel, carouselStep, h5, startCarouselTracking, trackCarouselStart,
      trackSlideView, handleSlideChange, trackDwellEnd, initCarouselState]
  refine ⟨heq, ?_⟩
  rw [heq]
  decide

/-- A carousel signal whose detected index — derived from the transform for
detect/touch, carried directly for dot clicks and detected changes — is
below the slide count n. -/
def detectedIdxOK (n : ℕ) : CEvent → Bool
  | .detect sig _ => decide (getCurrentSlideIndex sig < n)
  | .touch sig _ => decide (getCurrentSlideIndex sig < n)
  | .dot i _ => decide (i < n)
  | .change i _ _ => decide (i < n)
  | .start _ => true
  | .unload _ => true

theorem carouselHandlePageUnload_currentSlide (s : CarouselState) (now : ℕ) :
    (carouselHandlePageUnload s now).1.currentSlide = s.currentSlide := by
  rcases hst : s.slideStartTime with _ | t0 <;>
    cases hb : s.isStarted <;>
      simp [carouselHandlePageUnload, trackCarouselComplete, trackDwellEnd, hst, hb]

theorem carouselStep_currentSlide_lt (n : ℕ) (s : CarouselState) (e : CEvent)
    (hs : s.currentSlide < n) (he : detectedIdxOK n e = true) :
    (carouselStep s e).1.currentSlide < n := by
  cases e with
  | start now =>
    have hn : 0 < n := Nat.lt_of_le_of_lt (Nat.zero_le _) hs
    cases hb : s.isStarted <;>
      simpa [carouselStep, startCarouselTracking, trackCarouselStart,
        trackSlideView, hb] using hn
  | detect sig now =>
    have hlt : getCurrentSlideIndex sig < n := of_decide_eq_true he
    by_cases hne : getCurrentSlideIndex sig ≠ s.currentSlide
    · simp only [carouselStep]
      rw [if_pos hne, handleSlideChange_currentSlide]
      exact hlt
    · simp only [carouselStep]
      rw [if_neg hne]
      exact hs
  | touch sig now =>
    have hlt : getCurrentSlideIndex sig < n := of_decide_eq_true he
    by_cases hne : getCurrentSlideIndex sig ≠ s.lastSlideIndex
    · simp only [carouselStep]
      rw [if_pos hne]
      show (handleSlideChange s (getCurrentSlideIndex sig)
          (if s.lastSlideIndex < getCurrentSlideIndex sig then "next" else "prev")
          now).1.currentSlide < n
      rw [handleSlideChange_currentSlide]
      exact hlt
    · simp only [carouselStep]
      rw [if_neg hne]
      exact hs
  | dot idx now =>
    have hlt : idx < n := of_decide_eq_true he
    simp only [carouselStep]
    rw [handleSlideChange_currentSlide]
    exact hlt
  | change idx dir now =>
    have hlt : idx < n := of_decide_eq_true he
    simp only [carouselStep]
    rw [handleSlideChange_currentSlide]
    exact hlt
  | unload now =>
    simp only [carouselStep]
    rw [carouselHandlePageUnload_currentSlide]
    exact hs

/-- C8 amended: currentSlide stays within [0, slideCount) for every trace
of signals whose detected indices — round(|percent| / 100) from a
transform offset, or the index carried by a navigation-control
activation — are below the slide count.  The code itself performs no
clamping, so a transform offset whose rounded magnitude reaches the slide
count pushes currentSlide out of range. -/
theorem currentSlide_in_range (n : ℕ) (es : List CEvent) (s : CarouselState)
    (hs : s.currentSlide < n)
    (hb : ∀ e ∈ es, detectedIdxOK n e = true) :
    (runCarousel s es).1.currentSlide < n := by
  induction es generalizing s with
  | nil => exact hs
  | cons e es ih =>
    exact ih (carouselStep s e).1
      (carouselStep_currentSlide_lt n s e hs (hb e (List.mem_cons_self _ _)))
      fun x hx => hb x (List.mem_cons_of_mem _ hx)

/-- Witness for the amended C8: a start, a forward change to slide 2 and a
detected translateX(-100%) keep currentSlide inside [0, 3). -/
theorem currentSlide_in_range_witness :
    (runCarousel (initCarouselState 3)
        [CEvent.start 0, CEvent.change 2 "next" 500,
          CEvent.detect (some (-100)) 900]).1.currentSlide < 3 :=
  currentSlide_in_range 3
    [CEvent.start 0, CEvent.change 2 "next" 500,
      CEvent.detect (some (-100)) 900]
    (initCarouselState 3) (by decide)
    (by
      have h1 : getCurrentSlideIndex (some (-100)) = 1 := by
        norm_num [getCurrentSlideIndex, jsRound, Int.toNat]
      simp [detectedIdxOK, h1])

/-- Observable outcome of getProlificId from src/js/ga-lite.js: the
returned identifier, the localStorage contents under prolific_id after the
call, and whether the interactive prompt was shown. -/
structure ProlificResult where
  result : Option String
  storageAfter : Option String
  promptShown : Bool
deriving DecidableEq

/-- JavaScript String.prototype.trim: strips leading and trailing
whitespace (modelled over the character list so it evaluates in the
kernel). -/
def jsTrim (s : String) : String :=
  String.mk (((s.data.dropWhile Char.isWhitespace).reverse.dropWhile
    Char.isWhitespace).reverse)

/-- The prompt branch of getProlificId: shows the prompt; a reply that is
truthy and trims to a truthy string is trimmed, saved to localStorage and
returned; otherwise null is returned (promptReply none models a declined
or cancelled prompt). -/
def getProlificIdPrompt (storage : Option String) (promptReply : Option String) :
    ProlificResult :=
  match promptReply with
  | some r =>
    if r ≠ "" ∧ jsTrim r ≠ "" then
      { result := some (jsTrim r), storageAfter := some (jsTrim r),
        promptShown := true }
    else { result := none, storageAfter := storage, promptShown := true }
  | none => { result := none, storageAfter := storage, promptShown := true }

/-- The localStorage branch of getProlificId: a truthy stored value is
returned directly, without showing the prompt. -/
def getProlificIdFromStorage (storage : Option String) (promptReply : Option String) :
    ProlificResult :=
  match storage with
  | some v =>
    if v ≠ "" then { result := some v, storageAfter := some v, promptShown := false }
    else getProlificIdPrompt storage promptReply
  | none => getProlificIdPrompt storage promptReply

/-- getProlificId from src/js/ga-lite.js: a truthy PROLIFIC_ID query
parameter is saved to localStorage and returned; otherwise the stored
value is consulted; otherwise the user is prompted.  JS string truthiness:
the empty string is falsy. -/
def getProlificId (urlParam : Option String) (storage : Option String)
    (promptReply : Option String) : ProlificResult :=
  match urlParam with
  | some u =>
    if u ≠ "" then { result := some u, storageAfter := some u, promptShown := false }
    else getProlificIdFromStorage storage promptReply
  | none => getProlificIdFromStorage storage promptReply

/-- C6 evaluation: with the URL parameter absent and a stored identifier
present, getProlificId returns the stored value without ever showing the
prompt — localStorage is consulted between the query-parameter check and
the prompt — and when the prompt path is taken, the entered identifier is
written to localStorage, persisting it for future page loads. -/
theorem identity_consults_storage_before_prompt :
    getProlificId none (some "P99") (some "TYPED") =
      { result := some "P99", storageAfter := some "P99", promptShown := false } ∧
    getProlificId none none (some "P42") =
      { result := some "P42", storageAfter := some "P42", promptShown := true } ∧
    getProlificId (some "P7") (some "OLD") none =
      { result := some "P7", storageAfter := some "P7", promptShown := false } ∧
    getProlificId none none none =
      { result := none, storageAfter := none, promptShown := true } := by
  decide

/-- isLoaded / gtag presence / resolved identity of the GALite sink, as
read by track from src/js/ga-lite.js. -/
structure GALiteState where
  isLoaded : Bool
  gtagDefined : Bool
  userId : Option String
deriving DecidableEq

/-- An analytics call forwarded to gtag: event name plus the JS-object
payload, modelled as a key-to-value map. -/
structure TrackCall where
  name : String
  data : String → Option String

/-- Outcome of a JS function call: a normal return or a propagated
exception. -/
inductive JsOutcome where
  | ok (call : Option TrackCall)
  | thrown

/-- track from src/js/ga-lite.js: returns silently (no analytics call)
when GA has not finished loading or gtag is missing; otherwise copies the
properties, overwrites user_id with the resolved identity when one is
present, and invokes gtag inside try/catch — an exception from the gtag
call (gtagThrows) is swallowed, so no exception ever propagates. -/
def track (s : GALiteState) (gtagThrows : Bool) (eventName : String)
    (props : String → Option String) : JsOutcome :=
  if ¬(s.isLoaded = true ∧ s.gtagDefined = true) then .ok none
  else
    match
      (if gtagThrows then JsOutcome.thrown
       else .ok (some
        { name := eventName,
          data := fun k =>
            match s.userId with
            | some u => if k = "user_id" then some u else props k
            | none => props k })) with
    | .thrown => .ok none
    | .ok c => .ok c

/-- C7: track never propagates an exception; it makes no analytics call
before the sink has finished initializing; and whenever a non-null
identity was resolved, the forwarded payload carries it under the fixed
key user_id while all other keys are forwarded unchanged. -/
theorem track_never_throws_noop_merges (s : GALiteState) (gt : Bool)
    (n : String) (props : String → Option String) :
    (track s gt n props ≠ .thrown) ∧
    (s.isLoaded = false → track s gt n props = .ok none) ∧
    (∀ u, s.isLoaded = true → s.gtagDefined = true → s.userId = some u →
      gt = false →
      ∃ call, track s gt n props = .ok (some call) ∧ call.name = n ∧
        call.data "user_id" = some u ∧
        ∀ k, k ≠ "user_id" → call.data k = props k) := by
  refine ⟨?_, ?_, ?_⟩
  · unfold track
    split
    · exact fun h => JsOutcome.noConfusion h
    · split <;> exact fun h => JsOutcome.noConfusion h
  · intro hl
    unfold track
    rw [if_pos (by simp [hl])]
  · intro u hl hg hu hgt
    refine ⟨TrackCall.mk n (fun k => if k = "user_id" then some u else props k),
      ?_, rfl, ?_, ?_⟩
    · unfold track
      rw [if_neg (by simp [hl, hg]), hgt, hu]
      rfl
    · simp
    · intro k hk
      simp [hk]

/-- Witness for C7 at concrete inputs: an unloaded sink makes no call and
does not throw; a loaded sink with identity P42 forwards the event with
user_id P42 and the other keys unchanged. -/
theorem track_never_throws_noop_merges_witness :
    (track ⟨false, false, none⟩ true "ev" (fun _ => none) ≠ .thrown) ∧
    track ⟨false, false, none⟩ true "ev" (fun _ => none) = .ok none ∧
    ∃ call, track ⟨true, true, some "P42"⟩ false "ev" (fun _ => none)
        = .ok (some call) ∧ call.name = "ev" ∧
      call.data "user_id" = some "P42" ∧
      ∀ k, k ≠ "user_id" → call.data k = none := by
  refine ⟨(track_never_throws_noop_merges ⟨false, false, none⟩ true "ev"
      (fun _ => none)).1,
    (track_never_throws_noop_merges ⟨false, false, none⟩ true "ev"
      (fun _ => none)).2.1 rfl, ?_⟩
  exact (track_never_throws_noop_merges ⟨true, true, some "P42"⟩ false "ev"
    (fun _ => none)).2.2 "P42" rfl rfl rfl rfl
